import Mathlib

/-!
Verification of the CNV annotator core (`CNV_annotator.py`, class `HGVSCNVAnnotator`
plus the Streamlit button handler).

Conventions of the embedding:
* pandas dataframes become lists of records; the two optional reference tables
  (`cytoband_df`, `genelist_df`, which are `None` until loaded) become
  `Option (List _)` fields of `Annotator`.
* Python strings are Lean `String`s; character-level work is done on `String.data`.
  `str.strip` / `str.lower` are modelled on ASCII (the only characters the
  program's data contains).
* fallible functions that the source signals with `None` returns (plus a
  distinguishing console message) are embedded as `Except AnnError _`:
  `parse_coordinate` returns `None` on a regex mismatch (`malformedCoordinate`)
  and `None` after printing the start/end message (`invalidRange`);
  `generate_hgvs` returns `(None, None, [])` after printing the invalid event
  type message (`invalidEventType`, carrying the normalized event string that
  the source interpolates into that message).
* integers parsed from `(\d+)` captures are `Nat` (they are digit runs, hence
  non-negative, and no arithmetic overflows are involved).
-/

/-- Record of the cytoband table: columns `chrom, start, end, cytoband, stain`
(`load_cytoband`, lines 17-23).  `end_` stands for the source's `end` column,
which is a Lean keyword. -/
structure CytobandRecord where
  chrom : String
  start : Nat
  end_ : Nat
  cytoband : String
  stain : String
deriving DecidableEq

/-- Record of the gene table: columns `chrom, start, end, gene_name`
(`load_genelist`, lines 25-32; the `chrom` column is cast to `str`). -/
structure GeneRecord where
  chrom : String
  start : Nat
  end_ : Nat
  gene_name : String
deriving DecidableEq

/-- The `HGVSCNVAnnotator` state: the two reference tables, `None` when absent
(lines 9-10). -/
structure Annotator where
  cytoband_df : Option (List CytobandRecord)
  genelist_df : Option (List GeneRecord)

/-- The triple returned by a successful `generate_hgvs` (line 122):
`hgvs` is the source's `hgvs_notation` string, `full_ann` its
`full_annotation` string, and `overlapping_genes` the gene list. -/
structure AnnotResult where
  hgvs : String
  full_ann : String
  overlapping_genes : List String
deriving DecidableEq

/-- Error kinds of the annotator, distinguished in the source by which `None`
return / console message is produced. -/
inductive AnnError where
  | malformedCoordinate
  | invalidRange
  | invalidEventType (offending : String)
deriving DecidableEq

deriving instance DecidableEq for Except

/-- Python `str.strip()` on the character list of a string: drop leading and
trailing whitespace. -/
def trimChars (l : List Char) : List Char :=
  ((l.dropWhile Char.isWhitespace).reverse.dropWhile Char.isWhitespace).reverse

/-- Value of a decimal digit run, as Python `int()` reads a `(\d+)` capture. -/
def digitsVal (l : List Char) : Nat :=
  l.foldl (fun n c => 10 * n + (c.toNat - 48)) 0

/-- One `(\d+)` capture of the source regex: the maximal leading digit run,
failing if it is empty. -/
def parseNum (l : List Char) : Option (List Char × List Char) :=
  let d := l.takeWhile Char.isDigit
  if d.isEmpty then none else some (d, l.dropWhile Char.isDigit)

/-- The chromosome alternation `(\d+|X|Y|M|MT)` of the source regex (line 8).
The regex tries `M` before `MT`, but the token must be followed by `:`, so on
input starting `MT` the `M` branch always backtracks; consuming `MT` greedily
is therefore equivalent. -/
def parseChromTok (l : List Char) : Option (List Char × List Char) :=
  match l with
  | [] => none
  | a :: r =>
    if a = 'X' then some ([a], r)
    else if a = 'Y' then some ([a], r)
    else if a = 'M' then
      match r with
      | b :: r2 => if b = 'T' then some (['M', 'T'], r2) else some (['M'], r)
      | [] => some (['M'], [])
    else
      let d := (a :: r).takeWhile Char.isDigit
      if d.isEmpty then none else some (d, (a :: r).dropWhile Char.isDigit)

/-- The anchored body `(\d+|X|Y|M|MT):(\d+)-(\d+)$` of the source regex,
after the optional `chr` has been consumed: chromosome token, `:`, start
digits, `-`, end digits, end of input. -/
def parseCore (l : List Char) : Option (String × Nat × Nat) :=
  match parseChromTok l with
  | none => none
  | some (c, r) =>
    match r with
    | x :: r2 =>
      if x = ':' then
        match parseNum r2 with
        | none => none
        | some (d1, r3) =>
          match r3 with
          | y :: r4 =>
            if y = '-' then
              match parseNum r4 with
              | none => none
              | some (d2, r5) =>
                if r5 = [] then some (String.mk c, digitsVal d1, digitsVal d2) else none
            else none
          | [] => none
      else none
    | [] => none

/-- The optional `(chr)?` literal of the source regex.  No chromosome token
starts with `c`, so when the input starts with `chr` the regex can only match
with the prefix consumed; unconditional stripping is equivalent to the
backtracking search. -/
def stripLeadingChr (l : List Char) : List Char :=
  if l.take 3 = ['c', 'h', 'r'] then l.drop 3 else l

/-- `parse_coordinate` (lines 34-44): strip the input, match it against
`^(chr)?(\d+|X|Y|M|MT):(\d+)-(\d+)$`, fail on mismatch, fail when
`start >= end`, and otherwise return group 2 (chromosome, without any `chr`)
and the two positions as integers. -/
def parse_coordinate (s : String) : Except AnnError (String × Nat × Nat) :=
  match parseCore (stripLeadingChr (trimChars s.data)) with
  | none => .error .malformedCoordinate
  | some (chrom, start, end_) =>
    if start ≥ end_ then .error .invalidRange else .ok (chrom, start, end_)

/-- Python `str.replace("chr", "")` on a character list: remove every
left-to-right non-overlapping occurrence of `chr`. -/
def stripChrAux : List Char → List Char
  | 'c' :: 'h' :: 'r' :: rest => stripChrAux rest
  | c :: rest => c :: stripChrAux rest
  | [] => []

/-- Python `str.replace("chr", "")`, used on both sides of the chromosome
comparison in `get_overlapping_genes` (lines 49-51). -/
def stripChr (s : String) : String := String.mk (stripChrAux s.data)

/-- pandas `Series.unique()`: de-duplicate keeping first occurrences in their
original order.  `seen` accumulates the values already emitted. -/
def uniqueAux (seen : List String) : List String → List String
  | [] => []
  | x :: xs => if x ∈ seen then uniqueAux seen xs else x :: uniqueAux (x :: seen) xs

/-- pandas `Series.unique()` (lines 60 and 76). -/
def uniqueFirst (l : List String) : List String := uniqueAux [] l

/-- Python `s.lower().strip()` (lower-case first, then strip), the
normalization applied to `event_type` (line 95) and `zygosity` (line 99). -/
def normTok (s : String) : String := String.mk (trimChars (s.data.map Char.toLower))

/-- Chromosome filter of `get_overlapping_genes` (lines 49-52): keep records
whose `chrom`, with every `chr` removed, equals the query chromosome with
every `chr` removed. -/
def chromFilterG (df : List GeneRecord) (chrom : String) : List GeneRecord :=
  df.filter (fun r => decide (stripChr r.chrom = stripChr chrom))

/-- Overlap filter of `get_overlapping_genes` (lines 55-57):
`start <= end_query AND end >= start_query` on the chromosome-filtered rows. -/
def overlapFilterG (df : List GeneRecord) (chrom : String) (s e : Nat) : List GeneRecord :=
  (chromFilterG df chrom).filter (fun r => decide (r.start ≤ e) && decide (s ≤ r.end_))

/-- Chromosome filter of `get_cytoband` (lines 67-68): keep records whose
`chrom` equals `"chr" + chrom` exactly (no stripping on either side). -/
def chromFilterC (df : List CytobandRecord) (chrom : String) : List CytobandRecord :=
  df.filter (fun r => decide (r.chrom = "chr" ++ chrom))

/-- Overlap filter of `get_cytoband` (lines 71-73), same inclusive test. -/
def overlapFilterC (df : List CytobandRecord) (chrom : String) (s e : Nat) : List CytobandRecord :=
  (chromFilterC df chrom).filter (fun r => decide (r.start ≤ e) && decide (s ≤ r.end_))

/-- `get_overlapping_genes` (lines 46-61): `[]` when no gene table; filter by
chromosome then by overlap, returning `[]` when either filter is empty;
otherwise the unique gene names, sorted ascending. -/
def get_overlapping_genes (a : Annotator) (chrom : String) (s e : Nat) : List String :=
  match a.genelist_df with
  | none => []
  | some df =>
    let chr_genes := chromFilterG df chrom
    if chr_genes = [] then []
    else
      let overlapping := overlapFilterG df chrom s e
      if overlapping = [] then []
      else
        List.insertionSort (fun x y => x ≤ y)
          (uniqueFirst (overlapping.map (fun r => r.gene_name)))

/-- Cytoband reduction, lines 76-86 of `get_cytoband`, applied to the
de-duplicated band labels of the overlapping rows: one distinct label is
returned unchanged; otherwise `first_band = cytobands[0]`,
`last_band = cytobands[-1]`, `arm_prefix = first_band[0]` when that character
is `p` or `q` (the source raises on an empty first label; `arm = none` stands
for the empty `arm_prefix`), and the one-character prefix is stripped from
`last_band` exactly when `last_band` starts with the same character
(`startswith` of the one-character `arm_prefix` is its head comparison;
`last_band[1:]` is `drop 1`). -/
def reduceBands (cytobands : List String) : Option String :=
  match cytobands with
  | [] => none
  | [b] => some b
  | first_band :: rest =>
    let last_band := rest.getLastD first_band
    let arm : Option Char :=
      match first_band.data with
      | c :: _ => if c = 'p' ∨ c = 'q' then some c else none
      | [] => none
    match arm with
    | some c =>
      if last_band.data.head? = some c then
        some (first_band ++ "-" ++ String.mk (last_band.data.drop 1))
      else some (first_band ++ "-" ++ last_band)
    | none => some (first_band ++ "-" ++ last_band)

/-- The label-level reduction of `get_cytoband` (lines 74-86): `unique()` on
the labels of the overlapping rows, then `reduceBands`; the empty label list
corresponds to the `overlapping.empty` early `None` return. -/
def reduce (labels : List String) : Option String := reduceBands (uniqueFirst labels)

/-- `get_cytoband` (lines 64-86): `None` when no cytoband table; filter by
exact `"chr" + chrom` equality then by overlap, `None` when either filter is
empty; otherwise reduce the band labels of the overlapping rows. -/
def get_cytoband (a : Annotator) (chrom : String) (s e : Nat) : Option String :=
  match a.cytoband_df with
  | none => none
  | some df =>
    let chr_data := chromFilterC df chrom
    if chr_data = [] then none
    else
      let overlapping := overlapFilterC df chrom s e
      if overlapping = [] then none
      else reduce (overlapping.map (fun r => r.cytoband))

/-- `base_notation` of line 96: `f"chr{chrom}:(?_{start})_({end}_?)"`. -/
def hgvs_base (chrom : String) (start end_ : Nat) : String :=
  "chr" ++ chrom ++ ":(?_" ++ toString start ++ ")_(" ++ toString end_ ++ "_?)"

/-- Lines 95-115 of `generate_hgvs`: normalize `event_type`; duplications get
`base + " " + copy_number` with `[4]` for homozygous/hom zygosity and `[3]`
otherwise (the source's `if zygosity:` treats `None` and `""` alike, and its
explicit heterozygous branch yields the same `[3]` as its default branch);
deletions get `base + "del"`; anything else is the invalid event type failure
carrying the normalized string printed by line 114. -/
def build (chrom : String) (start end_ : Nat) (event_type : String) (zygosity : Option String) :
    Except AnnError (String × String) :=
  let et := normTok event_type
  if et = "duplication" ∨ et = "dup" then
    let copy_number :=
      match zygosity with
      | some z =>
        let zn := normTok z
        if zn = "homozygous" ∨ zn = "hom" then "[4]"
        else if zn = "heterozygous" ∨ zn = "het" then "[3]"
        else "[3]"
      | none => "[3]"
    .ok (hgvs_base chrom start end_ ++ " " ++ copy_number, "duplication")
  else if et = "deletion" ∨ et = "del" then
    .ok (hgvs_base chrom start end_ ++ "del", "deletion")
  else .error (.invalidEventType et)

/-- `generate_hgvs` (lines 90-122): parse the coordinate, build the notation
and event name, look up cytoband and genes, and assemble `full_annotation`
(line 118's `if cytoband:` is false both for `None` and for an empty label). -/
def generate_hgvs (a : Annotator) (coordinate : String) (event_type : String)
    (zygosity : Option String) : Except AnnError AnnotResult :=
  match parse_coordinate coordinate with
  | .error err => .error err
  | .ok (chrom, start, end_) =>
    match build chrom start end_ event_type zygosity with
    | .error err => .error err
    | .ok (notat, event_name) =>
      let cytoband := get_cytoband a chrom start end_
      let genes := get_overlapping_genes a chrom start end_
      let fa :=
        match cytoband with
        | some cb =>
          if cb = "" then notat
          else notat ++ "\n(chr" ++ chrom ++ cb ++ " partial " ++ event_name ++ ")"
        | none => notat
      .ok ⟨notat, fa, genes⟩

/-- The Streamlit `st.button("Annotate")` handler (lines 210-211): it calls
`generate_hgvs(coordinate, event_type)` with no zygosity argument, so the
selected `zygosity_choice` from the selectbox of line 206 is never passed. -/
def ui_annotate (a : Annotator) (coordinate event_type : String)
    (zygosity_choice : String) : Except AnnError AnnotResult :=
  match zygosity_choice with
  | _ => generate_hgvs a coordinate event_type none

/-! ### Spec-side definitions (for the refinement statements) -/

/-- Modelled from the spec's zygosity table for duplications: homozygous/hom
gives `[4]`; heterozygous/het gives `[3]`; any other non-none value, or none,
gives the default `[3]`. -/
def zygCopyNumber (zygosity : Option String) : String :=
  match zygosity with
  | some z =>
    if normTok z = "homozygous" ∨ normTok z = "hom" then "[4]"
    else if normTok z = "heterozygous" ∨ normTok z = "het" then "[3]"
    else "[3]"
  | none => "[3]"

/-! ### Helper lemmas -/

theorem data_append_str (a b : String) : (a ++ b).data = a.data ++ b.data := rfl

theorem stripChr_chr_append (q : String) : stripChr ("chr" ++ q) = stripChr q := by
  unfold stripChr
  rw [data_append_str]
  show String.mk (stripChrAux ('c' :: 'h' :: 'r' :: q.data)) = _
  rw [show stripChrAux ('c' :: 'h' :: 'r' :: q.data) = stripChrAux q.data from rfl]

theorem mem_uniqueAux (l : List String) :
    ∀ (seen : List String) (y : String), y ∈ uniqueAux seen l ↔ y ∈ l ∧ y ∉ seen := by
  induction l with
  | nil => intro seen y; simp [uniqueAux]
  | cons x xs ih =>
    intro seen y
    by_cases hx : x ∈ seen
    · rw [uniqueAux, if_pos hx, ih]
      simp only [List.mem_cons]
      constructor
      · rintro ⟨h1, h2⟩; exact ⟨Or.inr h1, h2⟩
      · rintro ⟨h1 | h1, h2⟩
        · exact absurd (h1 ▸ hx) h2
        · exact ⟨h1, h2⟩
    · rw [uniqueAux, if_neg hx]
      simp only [List.mem_cons, ih (x :: seen) y]
      constructor
      · rintro (rfl | ⟨h1, h2⟩)
        · exact ⟨Or.inl rfl, hx⟩
        · exact ⟨Or.inr h1, fun hc => h2 (Or.inr hc)⟩
      · rintro ⟨rfl | h1, h2⟩
        · exact Or.inl rfl
        · by_cases hyx : y = x
          · exact Or.inl hyx
          · exact Or.inr ⟨h1, by simp [hyx, h2]⟩

theorem nodup_uniqueAux (l : List String) : ∀ seen : List String, (uniqueAux seen l).Nodup := by
  induction l with
  | nil => intro seen; simp [uniqueAux]
  | cons x xs ih =>
    intro seen
    by_cases hx : x ∈ seen
    · rw [uniqueAux, if_pos hx]; exact ih seen
    · rw [uniqueAux, if_neg hx]
      refine List.nodup_cons.mpr ⟨fun hc => ?_, ih (x :: seen)⟩
      exact ((mem_uniqueAux xs (x :: seen) x).mp hc).2 (List.mem_cons_self x seen)

theorem sublist_uniqueAux (l : List String) :
    ∀ seen : List String, (uniqueAux seen l).Sublist l := by
  induction l with
  | nil => intro seen; simp [uniqueAux]
  | cons x xs ih =>
    intro seen
    by_cases hx : x ∈ seen
    · rw [uniqueAux, if_pos hx]; exact (ih seen).cons x
    · rw [uniqueAux, if_neg hx]; exact (ih (x :: seen)).cons₂ x

theorem mem_uniqueFirst (l : List String) (y : String) : y ∈ uniqueFirst l ↔ y ∈ l := by
  rw [uniqueFirst, mem_uniqueAux]; simp

theorem nodup_uniqueFirst (l : List String) : (uniqueFirst l).Nodup := nodup_uniqueAux l []

theorem mem_overlapFilterG (df : List GeneRecord) (q : String) (s e : Nat) (r : GeneRecord) :
    r ∈ overlapFilterG df q s e ↔
      r ∈ df ∧ stripChr r.chrom = stripChr q ∧ r.start ≤ e ∧ s ≤ r.end_ := by
  simp only [overlapFilterG, chromFilterG, List.mem_filter, Bool.and_eq_true,
    decide_eq_true_eq, and_assoc]

theorem mem_overlapFilterC (df : List CytobandRecord) (q : String) (s e : Nat)
    (r : CytobandRecord) :
    r ∈ overlapFilterC df q s e ↔
      r ∈ df ∧ r.chrom = "chr" ++ q ∧ r.start ≤ e ∧ s ≤ r.end_ := by
  simp only [overlapFilterC, chromFilterC, List.mem_filter, Bool.and_eq_true,
    decide_eq_true_eq, and_assoc]

/-! ### Claim C1 -/

/-- Claim C1 counterexample: with a cytoband table whose single record carries
the `chr16` prefix, the cytoband lookup succeeds for the query chromosome
`"16"` but fails for `"chr16"` on the same interval — the two callers do not
obtain the same results, so `get_cytoband` does not strip `chr` prefixes
before comparing. -/
theorem chr_handling_cx :
    get_cytoband ⟨some [⟨"chr16", 10, 20, "p13.11", "gneg"⟩], none⟩ "16" 12 15 ≠
      get_cytoband ⟨some [⟨"chr16", 10, 20, "p13.11", "gneg"⟩], none⟩ "chr16" 12 15 := by
  decide

/-- Claim C1 (amended): only `get_overlapping_genes` normalizes chromosome
names by removing `chr` from both sides, so its result is unchanged when the
caller adds a `chr` prefix to the query; `get_cytoband` instead prepends
`chr` to the query and keeps exactly the records whose chromosome field
equals `"chr" + query` verbatim. -/
theorem chr_handling_amended :
    (∀ (a : Annotator) (q : String) (s e : Nat),
        get_overlapping_genes a ("chr" ++ q) s e = get_overlapping_genes a q s e) ∧
    (∀ (df : List CytobandRecord) (q : String) (r : CytobandRecord),
        r ∈ chromFilterC df q ↔ r ∈ df ∧ r.chrom = "chr" ++ q) := by
  constructor
  · intro a q s e
    have hG : ∀ df : List GeneRecord, chromFilterG df ("chr" ++ q) = chromFilterG df q := by
      intro df
      unfold chromFilterG
      rw [stripChr_chr_append]
    have hO : ∀ (df : List GeneRecord), overlapFilterG df ("chr" ++ q) s e =
        overlapFilterG df q s e := by
      intro df; unfold overlapFilterG; rw [hG]
    obtain ⟨cdf, gdf⟩ := a
    cases gdf with
    | none => rfl
    | some df =>
      simp only [get_overlapping_genes]
      rw [hG, hO]
  · intro df q r
    simp [chromFilterC, List.mem_filter]

/-! ### Claim C7 -/

/-- Claim C7: both interval lookups keep a chromosome-matching record exactly
when `r.start <= end AND r.end >= start` (closed-interval overlap); a record
that merely touches the query at a single boundary coordinate is kept; and an
empty match set yields the empty gene list / no cytoband rather than an
error. -/
theorem overlap_inclusive_spec :
    (∀ (df : List GeneRecord) (q : String) (s e : Nat) (r : GeneRecord),
        r ∈ df → stripChr r.chrom = stripChr q →
        (r ∈ overlapFilterG df q s e ↔ r.start ≤ e ∧ s ≤ r.end_)) ∧
    (∀ (df : List CytobandRecord) (q : String) (s e : Nat) (r : CytobandRecord),
        r ∈ df → r.chrom = "chr" ++ q →
        (r ∈ overlapFilterC df q s e ↔ r.start ≤ e ∧ s ≤ r.end_)) ∧
    (∀ (df : List GeneRecord) (q : String) (s e : Nat) (r : GeneRecord),
        r ∈ df → stripChr r.chrom = stripChr q → r.start = e → r.end_ = e → s ≤ e →
        r ∈ overlapFilterG df q s e) ∧
    (∀ (df : List GeneRecord) (q : String) (s e : Nat) (r : GeneRecord),
        r ∈ df → stripChr r.chrom = stripChr q → r.start = s → r.end_ = s → s ≤ e →
        r ∈ overlapFilterG df q s e) ∧
    (∀ (cdf : Option (List CytobandRecord)) (df : List GeneRecord) (q : String) (s e : Nat),
        overlapFilterG df q s e = [] → get_overlapping_genes ⟨cdf, some df⟩ q s e = []) ∧
    (∀ (gdf : Option (List GeneRecord)) (df : List CytobandRecord) (q : String) (s e : Nat),
        overlapFilterC df q s e = [] → get_cytoband ⟨some df, gdf⟩ q s e = none) := by
  refine ⟨?_, ?_, ?_, ?_, ?_, ?_⟩
  · intro df q s e r hdf hch
    rw [mem_overlapFilterG]
    constructor
    · rintro ⟨_, _, h⟩; exact h
    · rintro ⟨h1, h2⟩; exact ⟨hdf, hch, h1, h2⟩
  · intro df q s e r hdf hch
    rw [mem_overlapFilterC]
    constructor
    · rintro ⟨_, _, h⟩; exact h
    · rintro ⟨h1, h2⟩; exact ⟨hdf, hch, h1, h2⟩
  · intro df q s e r hdf hch h1 h2 h3
    refine (mem_overlapFilterG df q s e r).mpr ⟨hdf, hch, ?_, ?_⟩
    · rw [h1]
    · rw [h2]; exact h3
  · intro df q s e r hdf hch h1 h2 h3
    refine (mem_overlapFilterG df q s e r).mpr ⟨hdf, hch, ?_, ?_⟩
    · rw [h1]; exact h3
    · rw [h2]
  · intro cdf df q s e h
    unfold get_overlapping_genes
    simp only
    by_cases hc : chromFilterG df q = []
    · rw [if_pos hc]
    · rw [if_neg hc, if_pos h]
  · intro gdf df q s e h
    unfold get_cytoband
    simp only
    by_cases hc : chromFilterC df q = []
    · rw [if_pos hc]
    · rw [if_neg hc, if_pos h]

/-- Claim C7 witness: a record touching the query `[2, 5]` exactly at its end
coordinate (`start = end = 5`) is kept by the gene overlap filter, and the
empty filters return the empty list / `none`. -/
theorem overlap_inclusive_spec_witness :
    (⟨"16", 5, 5, "GENEA"⟩ : GeneRecord) ∈
      overlapFilterG [⟨"16", 5, 5, "GENEA"⟩] "16" 2 5 ∧
    get_overlapping_genes ⟨none, some [⟨"1", 5, 5, "GENEA"⟩]⟩ "16" 2 5 = [] ∧
    get_cytoband ⟨some [⟨"chr1", 5, 5, "p1", "gneg"⟩], none⟩ "16" 2 5 = none := by
  refine ⟨?_, ?_, ?_⟩
  · exact overlap_inclusive_spec.2.2.1 [⟨"16", 5, 5, "GENEA"⟩] "16" 2 5 ⟨"16", 5, 5, "GENEA"⟩
      (by decide) (by decide) (by decide) (by decide) (by decide)
  · exact overlap_inclusive_spec.2.2.2.2.1 none [⟨"1", 5, 5, "GENEA"⟩] "16" 2 5 (by decide)
  · exact overlap_inclusive_spec.2.2.2.2.2 none [⟨"chr1", 5, 5, "p1", "gneg"⟩] "16" 2 5 (by decide)

/-! ### Helper lemmas about `build` and `generate_hgvs` (shared by several claims) -/

theorem build_dup (chrom : String) (start end_ : Nat) (et : String) (zygosity : Option String)
    (h : normTok et = "duplication" ∨ normTok et = "dup") :
    build chrom start end_ et zygosity =
      .ok (hgvs_base chrom start end_ ++ " " ++ zygCopyNumber zygosity, "duplication") := by
  simp only [build]
  rw [if_pos h]
  cases zygosity <;> rfl

theorem build_del (chrom : String) (start end_ : Nat) (et : String) (zygosity : Option String)
    (h : normTok et = "deletion" ∨ normTok et = "del") :
    build chrom start end_ et zygosity =
      .ok (hgvs_base chrom start end_ ++ "del", "deletion") := by
  have hne : ¬(normTok et = "duplication" ∨ normTok et = "dup") := by
    rintro (hc | hc) <;> rcases h with h | h <;> exact absurd (h.symm.trans hc) (by decide)
  simp only [build]
  rw [if_neg hne, if_pos h]

theorem build_bad (chrom : String) (start end_ : Nat) (et : String) (zygosity : Option String)
    (h1 : normTok et ≠ "duplication") (h2 : normTok et ≠ "dup")
    (h3 : normTok et ≠ "deletion") (h4 : normTok et ≠ "del") :
    build chrom start end_ et zygosity = .error (.invalidEventType (normTok et)) := by
  simp only [build]
  rw [if_neg (by rintro (hc | hc) <;> [exact h1 hc; exact h2 hc]),
    if_neg (by rintro (hc | hc) <;> [exact h3 hc; exact h4 hc])]

theorem build_ok_event (chrom : String) (start end_ : Nat) (et : String)
    (zygosity : Option String) (p : String × String)
    (h : build chrom start end_ et zygosity = .ok p) :
    normTok et = "duplication" ∨ normTok et = "dup" ∨
      normTok et = "deletion" ∨ normTok et = "del" := by
  by_cases h1 : normTok et = "duplication"; · exact Or.inl h1
  by_cases h2 : normTok et = "dup"; · exact Or.inr (Or.inl h2)
  by_cases h3 : normTok et = "deletion"; · exact Or.inr (Or.inr (Or.inl h3))
  by_cases h4 : normTok et = "del"; · exact Or.inr (Or.inr (Or.inr h4))
  rw [build_bad chrom start end_ et zygosity h1 h2 h3 h4] at h
  exact absurd h (by simp)

theorem generate_hgvs_ok (a : Annotator) (coordinate event_type : String) (z : Option String)
    (c : String) (s e : Nat) (nt evn : String)
    (hp : parse_coordinate coordinate = .ok (c, s, e))
    (hb : build c s e event_type z = .ok (nt, evn)) :
    generate_hgvs a coordinate event_type z =
      .ok ⟨nt,
        match get_cytoband a c s e with
        | some cb =>
          if cb = "" then nt else nt ++ "\n(chr" ++ c ++ cb ++ " partial " ++ evn ++ ")"
        | none => nt,
        get_overlapping_genes a c s e⟩ := by
  unfold generate_hgvs
  rw [hp]
  dsimp only
  rw [hb]

/-! ### Claim C8 -/

/-- Claim C8: for every gene table and query, the gene list returned by
`get_overlapping_genes` is sorted ascending and has no duplicate names. -/
theorem genes_sorted_nodup (a : Annotator) (q : String) (s e : Nat) :
    (get_overlapping_genes a q s e).Sorted (fun x y => x ≤ y) ∧
    (get_overlapping_genes a q s e).Nodup := by
  obtain ⟨cdf, gdf⟩ := a
  cases gdf with
  | none => simp [get_overlapping_genes]
  | some df =>
    simp only [get_overlapping_genes]
    by_cases h1 : chromFilterG df q = []
    · rw [if_pos h1]; simp
    · rw [if_neg h1]
      by_cases h2 : overlapFilterG df q s e = []
      · rw [if_pos h2]; simp
      · rw [if_neg h2]
        constructor
        · exact List.sorted_insertionSort _ _
        · exact ((List.perm_insertionSort _ _).nodup_iff).mpr (nodup_uniqueFirst _)

/-! ### Claim C2 -/

/-- Claim C2: for every chromosome and positions, a normalized event type of
`duplication`/`dup` yields notation `base ++ " " ++ copy_number` with
event name `duplication`, where the copy number is `[4]` for normalized
zygosity `homozygous`/`hom` and `[3]` for `heterozygous`/`het`, any other
non-none value, or none; `deletion`/`del` yields `base ++ "del"` with event
name `deletion` regardless of zygosity. -/
theorem build_event_cases (chrom : String) (start end_ : Nat) (zygosity : Option String)
    (et : String) :
    (normTok et = "duplication" ∨ normTok et = "dup" →
      build chrom start end_ et zygosity =
        .ok (hgvs_base chrom start end_ ++ " " ++ zygCopyNumber zygosity, "duplication")) ∧
    (normTok et = "deletion" ∨ normTok et = "del" →
      build chrom start end_ et zygosity =
        .ok (hgvs_base chrom start end_ ++ "del", "deletion")) :=
  ⟨build_dup chrom start end_ et zygosity, build_del chrom start end_ et zygosity⟩

/-- Claim C2 witness: the spec's concrete examples, including mixed-case and
padded inputs and the `[3]` default without zygosity. -/
theorem build_event_cases_witness :
    build "16" 100 200 "duplication" (some "homozygous") =
      .ok ("chr16:(?_100)_(200_?) [4]", "duplication") ∧
    build "16" 100 200 " Dup " none = .ok ("chr16:(?_100)_(200_?) [3]", "duplication") ∧
    build "16" 100 200 "duplication" (some "heterozygous") =
      .ok ("chr16:(?_100)_(200_?) [3]", "duplication") ∧
    build "16" 100 200 "DELETION" (some "homozygous") =
      .ok ("chr16:(?_100)_(200_?)del", "deletion") := by
  refine ⟨?_, ?_, ?_, ?_⟩
  · exact ((build_event_cases "16" 100 200 (some "homozygous") "duplication").1
      (Or.inl (by decide))).trans (by decide)
  · exact ((build_event_cases "16" 100 200 none " Dup ").1 (Or.inr (by decide))).trans (by decide)
  · exact ((build_event_cases "16" 100 200 (some "heterozygous") "duplication").1
      (Or.inl (by decide))).trans (by decide)
  · exact ((build_event_cases "16" 100 200 (some "homozygous") "DELETION").2
      (Or.inl (by decide))).trans (by decide)

/-! ### Claim C3 -/

/-- Claim C3: the interactive handler never forwards the zygosity selection,
so its output is identical for any two selections (noninterference), and every
duplication annotated through it carries the default `[3]` suffix even when
the user selected `Homozygous`. -/
theorem ui_zygosity_noninterference :
    (∀ (a : Annotator) (coordinate event_type z1 z2 : String),
        ui_annotate a coordinate event_type z1 = ui_annotate a coordinate event_type z2) ∧
    (∀ (a : Annotator) (coordinate z : String) (c : String) (s e : Nat),
        parse_coordinate coordinate = .ok (c, s, e) →
        Except.map (fun r => r.hgvs) (ui_annotate a coordinate "duplication" z) =
          .ok (hgvs_base c s e ++ " " ++ "[3]")) := by
  constructor
  · intro a coordinate event_type z1 z2; rfl
  · intro a coordinate z c s e hp
    have hb : build c s e "duplication" none =
        .ok (hgvs_base c s e ++ " " ++ "[3]", "duplication") :=
      build_dup c s e "duplication" none (Or.inl (by decide))
    unfold ui_annotate
    rw [generate_hgvs_ok a coordinate "duplication" none c s e
      (hgvs_base c s e ++ " " ++ "[3]") "duplication" hp hb]
    rfl

/-- Claim C3 witness: with an empty annotator and coordinate
`chr16:100-200`, selecting `Homozygous` and selecting `Heterozygous` both
produce the `[3]` notation. -/
theorem ui_zygosity_noninterference_witness :
    ui_annotate ⟨none, none⟩ "chr16:100-200" "duplication" "Homozygous" =
      ui_annotate ⟨none, none⟩ "chr16:100-200" "duplication" "Heterozygous" ∧
    Except.map (fun r => r.hgvs)
        (ui_annotate ⟨none, none⟩ "chr16:100-200" "duplication" "Homozygous") =
      .ok ("chr16:(?_100)_(200_?) [3]") := by
  constructor
  · exact ui_zygosity_noninterference.1 ⟨none, none⟩ "chr16:100-200" "duplication"
      "Homozygous" "Heterozygous"
  · exact (ui_zygosity_noninterference.2 ⟨none, none⟩ "chr16:100-200" "Homozygous"
      "16" 100 200 (by decide)).trans (by decide)

/-! ### Claim C6 -/

/-- Claim C6: an event type whose normalized form is none of `duplication`,
`dup`, `deletion`, `del` makes the builder — and, for a well-formed
coordinate, the whole annotation — fail with the invalid event type error
carrying the offending (normalized) string; and a successful annotation is
only ever produced for one of the four recognized forms, so an `Except.error`
is always distinguishable from a success with an empty gene list. -/
theorem invalid_event_spec :
    (∀ (chrom : String) (start end_ : Nat) (z : Option String) (et : String),
        normTok et ≠ "duplication" → normTok et ≠ "dup" →
        normTok et ≠ "deletion" → normTok et ≠ "del" →
        build chrom start end_ et z = .error (.invalidEventType (normTok et))) ∧
    (∀ (a : Annotator) (coordinate : String) (c : String) (s e : Nat)
        (z : Option String) (et : String),
        parse_coordinate coordinate = .ok (c, s, e) →
        normTok et ≠ "duplication" → normTok et ≠ "dup" →
        normTok et ≠ "deletion" → normTok et ≠ "del" →
        generate_hgvs a coordinate et z = .error (.invalidEventType (normTok et))) ∧
    (∀ (a : Annotator) (coordinate et : String) (z : Option String) (r : AnnotResult),
        generate_hgvs a coordinate et z = .ok r →
        normTok et = "duplication" ∨ normTok et = "dup" ∨
          normTok et = "deletion" ∨ normTok et = "del") := by
  refine ⟨?_, ?_, ?_⟩
  · intro chrom start end_ z et h1 h2 h3 h4
    exact build_bad chrom start end_ et z h1 h2 h3 h4
  · intro a coordinate c s e z et hp h1 h2 h3 h4
    unfold generate_hgvs
    rw [hp]
    dsimp only
    rw [build_bad c s e et z h1 h2 h3 h4]
  · intro a coordinate et z r h
    unfold generate_hgvs at h
    split at h
    · exact absurd h (by simp)
    · rename_i c s e heq
      split at h
      · exact absurd h (by simp)
      · rename_i nt evn hb
        exact build_ok_event _ _ _ et z (nt, evn) hb

/-- Claim C6 witness: `amplification` (the spec's example) is rejected with
the invalid event type failure, both by the builder and end to end. -/
theorem invalid_event_spec_witness :
    build "16" 100 200 "amplification" none =
      .error (.invalidEventType "amplification") ∧
    generate_hgvs ⟨none, none⟩ "chr16:100-200" "amplification" none =
      .error (.invalidEventType "amplification") := by
  constructor
  · exact (invalid_event_spec.1 "16" 100 200 none "amplification"
      (by decide) (by decide) (by decide) (by decide)).trans (by decide)
  · exact (invalid_event_spec.2.1 ⟨none, none⟩ "chr16:100-200" "16" 100 200 none
      "amplification" (by decide) (by decide) (by decide) (by decide) (by decide)).trans
      (by decide)

/-! ### Claim C9 -/

/-- Claim C9: on a successful annotation, the result's notation is the built
notation, and `full_annotation` is the two-line string
`notation ++ "\n(chr" ++ chromosome ++ cytoband ++ " partial " ++ event_name ++ ")"`
when the cytoband lookup produced a (non-empty, per the source's `if cytoband:`
truthiness test) label, and the notation alone when it produced none. -/
theorem full_ann_assembly (a : Annotator) (coordinate event_type : String) (z : Option String)
    (c : String) (s e : Nat) (nt evn : String) (r : AnnotResult)
    (hp : parse_coordinate coordinate = .ok (c, s, e))
    (hb : build c s e event_type z = .ok (nt, evn))
    (hr : generate_hgvs a coordinate event_type z = .ok r) :
    r.hgvs = nt ∧
    (∀ cb, get_cytoband a c s e = some cb → cb ≠ "" →
      r.full_ann = nt ++ "\n(chr" ++ c ++ cb ++ " partial " ++ evn ++ ")") ∧
    (get_cytoband a c s e = none → r.full_ann = nt) := by
  rw [generate_hgvs_ok a coordinate event_type z c s e nt evn hp hb] at hr
  have hr' := (Except.ok.injEq _ _).mp hr
  subst hr'
  refine ⟨rfl, ?_, ?_⟩
  · intro cb hcb hne
    show (match get_cytoband a c s e with
      | some cb =>
        if cb = "" then nt else nt ++ "\n(chr" ++ c ++ cb ++ " partial " ++ evn ++ ")"
      | none => nt) = _
    rw [hcb]
    exact if_neg hne
  · intro hcb
    show (match get_cytoband a c s e with
      | some cb =>
        if cb = "" then nt else nt ++ "\n(chr" ++ c ++ cb ++ " partial " ++ evn ++ ")"
      | none => nt) = nt
    rw [hcb]

/-- Claim C9 witness: a concrete run whose cytoband lookup finds `p13.11`
yields the two-line annotation, and one with no cytoband table yields the
notation alone. -/
theorem full_ann_assembly_witness :
    (⟨"chr16:(?_12)_(15_?) [3]",
      "chr16:(?_12)_(15_?) [3]\n(chr16p13.11 partial duplication)",
      []⟩ : AnnotResult).full_ann =
      "chr16:(?_12)_(15_?) [3]" ++ "\n(chr" ++ "16" ++ "p13.11" ++ " partial " ++
        "duplication" ++ ")" ∧
    (⟨"chr16:(?_12)_(15_?) [3]", "chr16:(?_12)_(15_?) [3]", []⟩ : AnnotResult).full_ann =
      "chr16:(?_12)_(15_?) [3]" := by
  constructor
  · exact (full_ann_assembly ⟨some [⟨"chr16", 10, 20, "p13.11", "gneg"⟩], none⟩
      "chr16:12-15" "duplication" none "16" 12 15 "chr16:(?_12)_(15_?) [3]" "duplication"
      ⟨"chr16:(?_12)_(15_?) [3]",
        "chr16:(?_12)_(15_?) [3]\n(chr16p13.11 partial duplication)", []⟩
      (by decide) (by decide) (by decide)).2.1 "p13.11" (by decide) (by decide)
  · exact (full_ann_assembly ⟨none, none⟩
      "chr16:12-15" "duplication" none "16" 12 15 "chr16:(?_12)_(15_?) [3]" "duplication"
      ⟨"chr16:(?_12)_(15_?) [3]", "chr16:(?_12)_(15_?) [3]", []⟩
      (by decide) (by decide) (by decide)).2.2 (by decide)

/-! ### Claim C10 -/

/-- Claim C10: a missing cytoband table makes the cytoband lookup return
`none` and a missing gene table makes the gene lookup return `[]`; the
notation of the result never depends on either table; and with both tables
absent a valid request still succeeds, with `full_annotation` equal to the
notation alone and an empty gene list. -/
theorem missing_tables_spec :
    (∀ (gdf : Option (List GeneRecord)) (q : String) (s e : Nat),
        get_cytoband ⟨none, gdf⟩ q s e = none) ∧
    (∀ (cdf : Option (List CytobandRecord)) (q : String) (s e : Nat),
        get_overlapping_genes ⟨cdf, none⟩ q s e = []) ∧
    (∀ (a1 a2 : Annotator) (coordinate event_type : String) (z : Option String),
        Except.map (fun r => r.hgvs) (generate_hgvs a1 coordinate event_type z) =
          Except.map (fun r => r.hgvs) (generate_hgvs a2 coordinate event_type z)) ∧
    (∀ (coordinate event_type : String) (z : Option String) (c : String) (s e : Nat)
        (nt evn : String),
        parse_coordinate coordinate = .ok (c, s, e) →
        build c s e event_type z = .ok (nt, evn) →
        generate_hgvs ⟨none, none⟩ coordinate event_type z = .ok ⟨nt, nt, []⟩) := by
  refine ⟨fun gdf q s e => rfl, fun cdf q s e => rfl, ?_, ?_⟩
  · intro a1 a2 coordinate event_type z
    unfold generate_hgvs
    cases hp : parse_coordinate coordinate with
    | error err => rfl
    | ok v =>
      obtain ⟨c, s, e⟩ := v
      dsimp only
      cases hb : build c s e event_type z with
      | error err => rfl
      | ok p => obtain ⟨nt, evn⟩ := p; rfl
  · intro coordinate event_type z c s e nt evn hp hb
    rw [generate_hgvs_ok ⟨none, none⟩ coordinate event_type z c s e nt evn hp hb]
    rfl

/-- Claim C10 witness: with no reference tables at all, a valid deletion
request still succeeds and its full annotation is the notation alone. -/
theorem missing_tables_spec_witness :
    get_cytoband ⟨none, none⟩ "16" 1 2 = none ∧
    get_overlapping_genes ⟨none, none⟩ "16" 1 2 = [] ∧
    generate_hgvs ⟨none, none⟩ "chr16:100-200" "deletion" none =
      .ok ⟨"chr16:(?_100)_(200_?)del", "chr16:(?_100)_(200_?)del", []⟩ := by
  refine ⟨missing_tables_spec.1 none "16" 1 2, missing_tables_spec.2.1 none "16" 1 2, ?_⟩
  · exact (missing_tables_spec.2.2.2 "chr16:100-200" "deletion" none "16" 100 200
      "chr16:(?_100)_(200_?)del" "deletion" (by decide) (by decide)).trans (by decide)

/-! ### Claim C4 -/

theorem reduceBands_single (b : String) : reduceBands [b] = some b := rfl

theorem reduceBands_arm (first r2 : String) (rs : List String) (c : Char) (t : List Char)
    (hd : first.data = c :: t) (hc : c = 'p' ∨ c = 'q') :
    reduceBands (first :: r2 :: rs) =
      if ((r2 :: rs).getLastD first).data.head? = some c then
        some (first ++ "-" ++ String.mk (((r2 :: rs).getLastD first).data.drop 1))
      else some (first ++ "-" ++ (r2 :: rs).getLastD first) := by
  simp only [reduceBands, hd]
  rw [if_pos hc]

theorem reduceBands_noarm (first r2 : String) (rs : List String) (c : Char) (t : List Char)
    (hd : first.data = c :: t) (hc : ¬(c = 'p' ∨ c = 'q')) :
    reduceBands (first :: r2 :: rs) = some (first ++ "-" ++ (r2 :: rs).getLastD first) := by
  simp only [reduceBands, hd]
  rw [if_neg hc]

/-- Claim C4: cytoband reduction. The empty label sequence reduces to none;
labels are de-duplicated order-preservingly (no duplicates, a subsequence of
the input, same members); a single distinct label is returned unchanged;
otherwise, with `first` the first and `last` the final element of the
de-duplicated sequence, when `first` leads with `p` or `q` and `last` starts
with that same character, that one character is stripped from `last` and the
result is `first ++ "-" ++ stripped`; when the arms differ, or `first` leads
with neither `p` nor `q`, both labels appear unmodified around the hyphen.
The spec's two concrete examples are included. -/
theorem reduce_spec :
    (reduce [] = none) ∧
    (∀ labels : List String,
        (uniqueFirst labels).Nodup ∧ (uniqueFirst labels).Sublist labels ∧
        ∀ x, x ∈ uniqueFirst labels ↔ x ∈ labels) ∧
    (∀ (labels : List String) (b : String), uniqueFirst labels = [b] → reduce labels = some b) ∧
    (∀ (labels : List String) (first : String) (rest : List String) (c : Char) (t : List Char),
        uniqueFirst labels = first :: rest → rest ≠ [] → first.data = c :: t →
        (c = 'p' ∨ c = 'q') →
        ((rest.getLastD first).data.head? = some c →
          reduce labels = some (first ++ "-" ++ String.mk ((rest.getLastD first).data.drop 1))) ∧
        (∀ (d : Char) (t2 : List Char), (rest.getLastD first).data = d :: t2 → d ≠ c →
          reduce labels = some (first ++ "-" ++ rest.getLastD first))) ∧
    (∀ (labels : List String) (first : String) (rest : List String) (c : Char) (t : List Char),
        uniqueFirst labels = first :: rest → rest ≠ [] → first.data = c :: t →
        ¬(c = 'p' ∨ c = 'q') →
        reduce labels = some (first ++ "-" ++ rest.getLastD first)) ∧
    (reduce ["p13.11", "p13.11", "p12.3"] = some "p13.11-12.3") ∧
    (reduce ["p13.11", "q21.1"] = some "p13.11-q21.1") := by
  refine ⟨rfl, ?_, ?_, ?_, ?_, by decide, by decide⟩
  · intro labels
    exact ⟨nodup_uniqueFirst labels, sublist_uniqueAux labels [], mem_uniqueFirst labels⟩
  · intro labels b hu
    show reduceBands (uniqueFirst labels) = some b
    rw [hu, reduceBands_single]
  · intro labels first rest c t hu hne hd hc
    obtain ⟨r2, rs, rfl⟩ : ∃ r2 rs, rest = r2 :: rs := by
      cases rest with
      | nil => exact absurd rfl hne
      | cons r2 rs => exact ⟨r2, rs, rfl⟩
    constructor
    · intro hhead
      show reduceBands (uniqueFirst labels) = _
      rw [hu, reduceBands_arm first r2 rs c t hd hc, if_pos hhead]
    · intro d t2 hdt hdc
      have hhead : ¬(((r2 :: rs).getLastD first).data.head? = some c) := by
        rw [hdt]
        intro hcon
        exact hdc (Option.some.inj hcon)
      show reduceBands (uniqueFirst labels) = _
      rw [hu, reduceBands_arm first r2 rs c t hd hc, if_neg hhead]
  · intro labels first rest c t hu hne hd hc
    obtain ⟨r2, rs, rfl⟩ : ∃ r2 rs, rest = r2 :: rs := by
      cases rest with
      | nil => exact absurd rfl hne
      | cons r2 rs => exact ⟨r2, rs, rfl⟩
    show reduceBands (uniqueFirst labels) = _
    rw [hu, reduceBands_noarm first r2 rs c t hd hc]

/-- Claim C4 witness: a covering set of concrete reductions obtained from the
theorem at explicit inputs — repeated single label, same-arm stripping,
different arms, and non-arm leading character. -/
theorem reduce_spec_witness :
    reduce ["p5", "p5"] = some "p5" ∧
    reduce ["p13.11", "p12.3"] = some "p13.11-12.3" ∧
    reduce ["p1", "q2"] = some "p1-q2" ∧
    reduce ["z1", "z2"] = some "z1-z2" := by
  refine ⟨?_, ?_, ?_, ?_⟩
  · exact reduce_spec.2.2.1 ["p5", "p5"] "p5" (by decide)
  · exact ((reduce_spec.2.2.2.1 ["p13.11", "p12.3"] "p13.11" ["p12.3"] 'p' "13.11".data
      (by decide) (by decide) (by decide) (Or.inl rfl)).1 (by decide)).trans (by decide)
  · exact ((reduce_spec.2.2.2.1 ["p1", "q2"] "p1" ["q2"] 'p' "1".data
      (by decide) (by decide) (by decide) (Or.inl rfl)).2 'q' "2".data
      (by decide) (by decide)).trans (by decide)
  · exact (reduce_spec.2.2.2.2.1 ["z1", "z2"] "z1" ["z2"] 'z' "1".data
      (by decide) (by decide) (by decide) (by decide)).trans (by decide)

/-! ### Claim C5 -/

/-- Modelled from the spec's grammar: a non-empty run of digits. -/
def IsDigits (l : List Char) : Prop := l ≠ [] ∧ ∀ c ∈ l, c.isDigit = true

/-- Modelled from the spec's grammar: a chromosome token is one or more
digits or one of `X`, `Y`, `M`, `MT` (case-sensitive). -/
def IsChromTok (l : List Char) : Prop :=
  IsDigits l ∨ l = ['X'] ∨ l = ['Y'] ∨ l = ['M'] ∨ l = ['M', 'T']

/-- Modelled from the spec's grammar: the trimmed input decomposes as an
optional `chr` literal, a chromosome token, `:`, start digits, `-`, end
digits, with nothing after. -/
def GrammarDecomp (l c d1 d2 : List Char) : Prop :=
  (l = c ++ ':' :: (d1 ++ '-' :: d2) ∨
    l = 'c' :: 'h' :: 'r' :: (c ++ ':' :: (d1 ++ '-' :: d2))) ∧
  IsChromTok c ∧ IsDigits d1 ∧ IsDigits d2

instance (l : List Char) : Decidable (IsDigits l) :=
  inferInstanceAs (Decidable (l ≠ [] ∧ ∀ c ∈ l, c.isDigit = true))

instance (l : List Char) : Decidable (IsChromTok l) :=
  inferInstanceAs (Decidable (IsDigits l ∨ l = ['X'] ∨ l = ['Y'] ∨ l = ['M'] ∨ l = ['M', 'T']))

instance (l c d1 d2 : List Char) : Decidable (GrammarDecomp l c d1 d2) :=
  inferInstanceAs (Decidable ((l = c ++ ':' :: (d1 ++ '-' :: d2) ∨
    l = 'c' :: 'h' :: 'r' :: (c ++ ':' :: (d1 ++ '-' :: d2))) ∧
    IsChromTok c ∧ IsDigits d1 ∧ IsDigits d2))

theorem takeWhile_append_of_all (p : Char → Bool) (l1 l2 : List Char)
    (h : ∀ a ∈ l1, p a = true) : (l1 ++ l2).takeWhile p = l1 ++ l2.takeWhile p := by
  induction l1 with
  | nil => rfl
  | cons a t ih =>
    have ha : p a = true := h a (List.mem_cons_self a t)
    rw [List.cons_append, List.takeWhile_cons]
    simp [ha, ih (fun b hb => h b (List.mem_cons_of_mem a hb))]

theorem dropWhile_append_of_all (p : Char → Bool) (l1 l2 : List Char)
    (h : ∀ a ∈ l1, p a = true) : (l1 ++ l2).dropWhile p = l2.dropWhile p := by
  induction l1 with
  | nil => rfl
  | cons a t ih =>
    have ha : p a = true := h a (List.mem_cons_self a t)
    rw [List.cons_append, List.dropWhile_cons]
    simp [ha, ih (fun b hb => h b (List.mem_cons_of_mem a hb))]

theorem digit_ne (c : Char) (h : c.isDigit = true) :
    c ≠ 'X' ∧ c ≠ 'Y' ∧ c ≠ 'M' ∧ c ≠ 'c' := by
  refine ⟨?_, ?_, ?_, ?_⟩ <;> rintro rfl <;> exact absurd h (by decide)

theorem isEmpty_false_of_ne_nil (l : List Char) (h : l ≠ []) : l.isEmpty = false := by
  cases l with
  | nil => exact absurd rfl h
  | cons a t => rfl

theorem parseNum_append (d : List Char) (b : Char) (r : List Char) (hd : IsDigits d)
    (hb : b.isDigit = false) : parseNum (d ++ b :: r) = some (d, b :: r) := by
  have ht : (d ++ b :: r).takeWhile Char.isDigit = d := by
    rw [takeWhile_append_of_all Char.isDigit d (b :: r) hd.2, List.takeWhile_cons, hb]
    simp
  have hr : (d ++ b :: r).dropWhile Char.isDigit = b :: r := by
    rw [dropWhile_append_of_all Char.isDigit d (b :: r) hd.2, List.dropWhile_cons, hb]
    simp
  simp only [parseNum, ht, hr, isEmpty_false_of_ne_nil d hd.1]
  rfl

theorem parseNum_end (d : List Char) (hd : IsDigits d) : parseNum d = some (d, []) := by
  have ht : d.takeWhile Char.isDigit = d := by
    have := takeWhile_append_of_all Char.isDigit d [] hd.2
    simpa using this
  have hr : d.dropWhile Char.isDigit = [] := by
    have := dropWhile_append_of_all Char.isDigit d [] hd.2
    simpa using this
  simp only [parseNum, ht, hr, isEmpty_false_of_ne_nil d hd.1]
  rfl

theorem parseNum_sound (l d r : List Char) (h : parseNum l = some (d, r)) :
    l = d ++ r ∧ IsDigits d := by
  simp only [parseNum] at h
  by_cases he : (l.takeWhile Char.isDigit).isEmpty = true
  · rw [if_pos he] at h
    exact absurd h (by simp)
  · rw [if_neg he] at h
    obtain ⟨hd, hr⟩ := Prod.mk.inj (Option.some.inj h)
    subst hd; subst hr
    refine ⟨(List.takeWhile_append_dropWhile Char.isDigit l).symm, ?_, ?_⟩
    · intro hnil
      rw [hnil] at he
      exact he rfl
    · intro x hx
      exact List.mem_takeWhile_imp hx

theorem parseChromTok_colon (c rest : List Char) (h : IsChromTok c) :
    parseChromTok (c ++ ':' :: rest) = some (c, ':' :: rest) := by
  rcases h with ⟨hne, hdig⟩ | rfl | rfl | rfl | rfl
  · cases c with
    | nil => exact absurd rfl hne
    | cons a t =>
      have ha := hdig a (List.mem_cons_self a t)
      obtain ⟨hx, hy, hm, _⟩ := digit_ne a ha
      have ht : ((a :: t) ++ ':' :: rest).takeWhile Char.isDigit = a :: t := by
        rw [takeWhile_append_of_all Char.isDigit (a :: t) (':' :: rest) hdig,
          List.takeWhile_cons]
        simp
      have hr : ((a :: t) ++ ':' :: rest).dropWhile Char.isDigit = ':' :: rest := by
        rw [dropWhile_append_of_all Char.isDigit (a :: t) (':' :: rest) hdig,
          List.dropWhile_cons]
        simp
      show parseChromTok (a :: (t ++ ':' :: rest)) = some (a :: t, ':' :: rest)
      simp only [parseChromTok, if_neg hx, if_neg hy, if_neg hm]
      rw [show a :: (t ++ ':' :: rest) = (a :: t) ++ ':' :: rest from rfl, ht, hr]
      simp [isEmpty_false_of_ne_nil (a :: t) (by simp)]
  · simp [parseChromTok]
  · simp [parseChromTok]
  · simp [parseChromTok]
  · simp [parseChromTok]

theorem parseChromTok_sound (l c r : List Char) (h : parseChromTok l = some (c, r)) :
    l = c ++ r ∧ IsChromTok c := by
  cases l with
  | nil => exact absurd h (by simp [parseChromTok])
  | cons a t =>
    simp only [parseChromTok] at h
    by_cases hx : a = 'X'
    · rw [if_pos hx] at h
      obtain ⟨hc, hr⟩ := Prod.mk.inj (Option.some.inj h)
      subst hc; subst hr; subst hx
      exact ⟨rfl, Or.inr (Or.inl rfl)⟩
    · rw [if_neg hx] at h
      by_cases hy : a = 'Y'
      · rw [if_pos hy] at h
        obtain ⟨hc, hr⟩ := Prod.mk.inj (Option.some.inj h)
        subst hc; subst hr; subst hy
        exact ⟨rfl, Or.inr (Or.inr (Or.inl rfl))⟩
      · rw [if_neg hy] at h
        by_cases hm : a = 'M'
        · rw [if_pos hm] at h
          subst hm
          cases t with
          | nil =>
            obtain ⟨hc, hr⟩ := Prod.mk.inj (Option.some.inj h)
            subst hc; subst hr
            exact ⟨rfl, Or.inr (Or.inr (Or.inr (Or.inl rfl)))⟩
          | cons b t2 =>
            replace h : (if b = 'T' then some (['M', 'T'], t2)
                else some (['M'], b :: t2)) = some (c, r) := h
            by_cases hb : b = 'T'
            · rw [if_pos hb] at h
              obtain ⟨hc, hr⟩ := Prod.mk.inj (Option.some.inj h)
              subst hc; subst hr; subst hb
              exact ⟨rfl, Or.inr (Or.inr (Or.inr (Or.inr rfl)))⟩
            · rw [if_neg hb] at h
              obtain ⟨hc, hr⟩ := Prod.mk.inj (Option.some.inj h)
              subst hc; subst hr
              exact ⟨rfl, Or.inr (Or.inr (Or.inr (Or.inl rfl)))⟩
        · rw [if_neg hm] at h
          by_cases he : ((a :: t).takeWhile Char.isDigit).isEmpty = true
          · rw [if_pos he] at h
            exact absurd h (by simp)
          · rw [if_neg he] at h
            obtain ⟨hc, hr⟩ := Prod.mk.inj (Option.some.inj h)
            subst hc; subst hr
            refine ⟨(List.takeWhile_append_dropWhile Char.isDigit (a :: t)).symm,
              Or.inl ⟨?_, ?_⟩⟩
            · intro hnil
              rw [hnil] at he
              exact he rfl
            · intro x hx2
              exact List.mem_takeWhile_imp hx2

theorem chromTok_head_ne (c : List Char) (h : IsChromTok c) :
    ∃ a t, c = a :: t ∧ a ≠ 'c' := by
  rcases h with ⟨hne, hdig⟩ | rfl | rfl | rfl | rfl
  · cases c with
    | nil => exact absurd rfl hne
    | cons a t =>
      exact ⟨a, t, rfl, (digit_ne a (hdig a (List.mem_cons_self a t))).2.2.2⟩
  · exact ⟨'X', [], rfl, by decide⟩
  · exact ⟨'Y', [], rfl, by decide⟩
  · exact ⟨'M', [], rfl, by decide⟩
  · exact ⟨'M', ['T'], rfl, by decide⟩

theorem parseCore_complete (c d1 d2 : List Char) (hc : IsChromTok c)
    (h1 : IsDigits d1) (h2 : IsDigits d2) :
    parseCore (c ++ ':' :: (d1 ++ '-' :: d2)) =
      some (String.mk c, digitsVal d1, digitsVal d2) := by
  unfold parseCore
  rw [parseChromTok_colon c (d1 ++ '-' :: d2) hc]
  dsimp only
  rw [if_pos rfl, parseNum_append d1 '-' d2 h1 (by decide)]
  dsimp only
  rw [if_pos rfl, parseNum_end d2 h2]
  dsimp only
  rw [if_pos rfl]

theorem parseCore_sound (l : List Char) (cs : String) (a b : Nat)
    (h : parseCore l = some (cs, a, b)) :
    ∃ c d1 d2, l = c ++ ':' :: (d1 ++ '-' :: d2) ∧ IsChromTok c ∧ IsDigits d1 ∧
      IsDigits d2 ∧ cs = String.mk c ∧ a = digitsVal d1 ∧ b = digitsVal d2 := by
  unfold parseCore at h
  cases hct : parseChromTok l with
  | none => rw [hct] at h; exact absurd h (by simp)
  | some v =>
    obtain ⟨c, r⟩ := v
    rw [hct] at h
    dsimp only at h
    obtain ⟨hl, hc⟩ := parseChromTok_sound l c r hct
    cases r with
    | nil => exact absurd h (by simp)
    | cons x r2 =>
      dsimp only at h
      by_cases hx : x = ':'
      · rw [if_pos hx] at h
        subst hx
        cases hn1 : parseNum r2 with
        | none => rw [hn1] at h; exact absurd h (by simp)
        | some w =>
          obtain ⟨d1, r3⟩ := w
          rw [hn1] at h
          dsimp only at h
          obtain ⟨hr2, h1⟩ := parseNum_sound r2 d1 r3 hn1
          cases r3 with
          | nil => exact absurd h (by simp)
          | cons y r4 =>
            dsimp only at h
            by_cases hy : y = '-'
            · rw [if_pos hy] at h
              subst hy
              cases hn2 : parseNum r4 with
              | none => rw [hn2] at h; exact absurd h (by simp)
              | some u =>
                obtain ⟨d2, r5⟩ := u
                rw [hn2] at h
                dsimp only at h
                obtain ⟨hr4, h2⟩ := parseNum_sound r4 d2 r5 hn2
                by_cases h5 : r5 = []
                · rw [if_pos h5] at h
                  subst h5
                  obtain ⟨hcs, hab⟩ := Prod.mk.inj (Option.some.inj h)
                  obtain ⟨ha, hb⟩ := Prod.mk.inj hab
                  refine ⟨c, d1, d2, ?_, hc, h1, h2, hcs.symm, ha.symm, hb.symm⟩
                  rw [hl, hr2, hr4, List.append_nil]
                · rw [if_neg h5] at h
                  exact absurd h (by simp)
            · rw [if_neg hy] at h
              exact absurd h (by simp)
      · rw [if_neg hx] at h
        exact absurd h (by simp)

theorem stripLeadingChr_chr (body : List Char) :
    stripLeadingChr ('c' :: 'h' :: 'r' :: body) = body := by
  simp [stripLeadingChr]

theorem stripLeadingChr_noc (a : Char) (t : List Char) (ha : a ≠ 'c') :
    stripLeadingChr (a :: t) = a :: t := by
  unfold stripLeadingChr
  rw [if_neg]
  intro hcon
  have : a :: t.take 2 = ['c', 'h', 'r'] := by
    rw [← hcon]
    rfl
  exact ha (List.cons.inj this).1

theorem stripLeadingChr_cases (l : List Char) :
    l = 'c' :: 'h' :: 'r' :: stripLeadingChr l ∨ stripLeadingChr l = l := by
  by_cases h : l.take 3 = ['c', 'h', 'r']
  · left
    have hshape : l = ['c', 'h', 'r'] ++ l.drop 3 := by
      conv_lhs => rw [← List.take_append_drop 3 l]
      rw [h]
    rw [show stripLeadingChr l = l.drop 3 from by unfold stripLeadingChr; rw [if_pos h]]
    exact hshape
  · right
    unfold stripLeadingChr
    rw [if_neg h]

/-- Claim C5: for every input whose trimmed character sequence decomposes per
the grammar (optional `chr`, chromosome token, `:`, start digits, `-`, end
digits), `parse_coordinate` returns exactly the captured chromosome and the
two integers when `start < end`, and fails with the invalid range error when
`start >= end` (for any chromosome); and whenever it does not fail with the
malformed coordinate error, the trimmed input does decompose per the grammar
(equivalently: every input violating the grammar fails with the malformed
coordinate error). -/
theorem parse_coordinate_spec :
    (∀ (s : String) (c d1 d2 : List Char),
        GrammarDecomp (trimChars s.data) c d1 d2 →
        (digitsVal d1 < digitsVal d2 →
          parse_coordinate s = .ok (String.mk c, digitsVal d1, digitsVal d2)) ∧
        (digitsVal d2 ≤ digitsVal d1 → parse_coordinate s = .error .invalidRange)) ∧
    (∀ s : String, parse_coordinate s ≠ .error .malformedCoordinate →
        ∃ c d1 d2, GrammarDecomp (trimChars s.data) c d1 d2) := by
  constructor
  · rintro s c d1 d2 ⟨hl, hc, h1, h2⟩
    have hstrip : stripLeadingChr (trimChars s.data) = c ++ ':' :: (d1 ++ '-' :: d2) := by
      rcases hl with hl | hl
      · rw [hl]
        obtain ⟨a, t, hct, ha⟩ := chromTok_head_ne c hc
        rw [hct]
        exact stripLeadingChr_noc a (t ++ ':' :: (d1 ++ '-' :: d2)) ha
      · rw [hl]
        exact stripLeadingChr_chr _
    have hres : parseCore (stripLeadingChr (trimChars s.data)) =
        some (String.mk c, digitsVal d1, digitsVal d2) := by
      rw [hstrip]
      exact parseCore_complete c d1 d2 hc h1 h2
    constructor
    · intro hlt
      unfold parse_coordinate
      rw [hres]
      dsimp only
      rw [if_neg (Nat.not_le.mpr hlt)]
    · intro hge
      unfold parse_coordinate
      rw [hres]
      dsimp only
      rw [if_pos hge]
  · intro s h
    unfold parse_coordinate at h
    cases hpc : parseCore (stripLeadingChr (trimChars s.data)) with
    | none =>
      rw [hpc] at h
      exact absurd rfl h
    | some v =>
      obtain ⟨cs, a, b⟩ := v
      obtain ⟨c, d1, d2, hl, hc, h1, h2, _, _, _⟩ := parseCore_sound _ cs a b hpc
      rcases stripLeadingChr_cases (trimChars s.data) with hcase | hcase
      · exact ⟨c, d1, d2, Or.inr (by rw [hcase, hl]), hc, h1, h2⟩
      · exact ⟨c, d1, d2, Or.inl (by rw [← hcase, hl]), hc, h1, h2⟩

/-- Claim C5 witness: concrete runs through the theorem — a valid coordinate
with `chr` prefix and whitespace parses to its captures, and a grammar-valid
coordinate with `start >= end` is the invalid range failure. -/
theorem parse_coordinate_spec_witness :
    parse_coordinate " chr16:100-200 " = .ok ("16", 100, 200) ∧
    parse_coordinate "16:200-100" = .error .invalidRange := by
  constructor
  · exact ((parse_coordinate_spec.1 " chr16:100-200 " ['1', '6'] ['1', '0', '0']
      ['2', '0', '0'] (by decide)).1 (by decide)).trans (by decide)
  · exact (parse_coordinate_spec.1 "16:200-100" ['1', '6'] ['2', '0', '0']
      ['1', '0', '0'] (by decide)).2 (by decide)
